import Mathlib

/-!
# A shallow embedding of `testipynb/testipynb.py`

The module under study generates one test per Jupyter notebook found in a
directory: it walks the directory, derives a test name from each notebook
filename, and builds test functions that execute the notebook through an
external engine and scan the executed cells' outputs for error entries.

Python strings are modelled as lists of characters (`Str`), the filesystem
seen by `os.walk` as a finite tree (`DirTree`), and the external
load/clear/execute sequence as an oracle value (`ExecResult`): either the
executed notebook document, or an exception. Machine-level details (kernel
management, printing) are outside the claims and are not modelled.
-/

/-- Python strings, as sequences of characters. -/
abbrev Str := List Char

/-- `os.path.sep`, fixed to the POSIX separator character. -/
def pathSep : Char := '/'

/-! ## Notebook documents (the nbformat data the result scan consumes) -/

/-- One entry of a cell's `"outputs"` list, with the fields `test_func`
reads: the `"output_type"` tag and, for error outputs, `"ename"` and
`"traceback"`. -/
structure Output where
  output_type : Str
  ename : Str
  traceback : List Str
deriving DecidableEq

/-- One notebook cell. `outputs = none` models a cell without an
`"outputs"` key (the code guards with `"outputs" in cell.keys()`);
`execution_count` may be absent (`None` in nbformat). -/
structure Cell where
  outputs : Option (List Output)
  execution_count : Option Nat
  source : Str
deriving DecidableEq

/-- An executed notebook document: its cells in document order. -/
structure Notebook where
  cells : List Cell
deriving DecidableEq

/-- The data `test_func` interpolates into its failure message on an error
output: `output["ename"]`, `cell["execution_count"]`, `cell["source"]`,
`output["traceback"]`. -/
structure FailureDetail where
  ename : Str
  cellIndex : Option Nat
  cellSource : Str
  traceback : List Str
deriving DecidableEq

/-- Result of the external sequence inside `test_func` — `open` +
`nbformat.read`, `ClearOutputPreprocessor.preprocess`,
`ExecutePreprocessor.preprocess` (lines 51-62): either the executed
notebook, or an exception raised by some step (missing or malformed file,
kernel start failure, timeout). -/
inductive ExecResult where
  | ok (nb : Notebook)
  | raised
deriving DecidableEq

/-! ## The output scan of `test_func` (lines 65-96) -/

/-- The `"error"` output-type tag. -/
def errTag : Str := "error".data

/-- The failure data `test_func` records for error output `o` of cell `c`. -/
def cellDetail (c : Cell) (o : Output) : FailureDetail :=
  ⟨o.ename, c.execution_count, c.source, o.traceback⟩

/-- The inner loop `for output in cell["outputs"]` up to the raising
`assert`: the first error output of one cell, if any; a cell without an
`"outputs"` key is skipped. -/
def cellFirstError (c : Cell) : Option FailureDetail :=
  match c.outputs with
  | none => none
  | some outs => (outs.find? (fun o => o.output_type == errTag)).map (cellDetail c)

/-- The nested scan over `out[0]["cells"]`: on the first output whose
`output_type` is `"error"` the code sets `passing = False`, builds the
message, and `assert passing, msg` raises at once, so the scan yields the
first error's detail (or none). -/
def firstError : List Cell → Option FailureDetail
  | [] => none
  | c :: cs =>
    match cellFirstError c with
    | some d => some d
    | none => firstError cs

/-- All error-output details of one cell, in order. -/
def cellErrors (c : Cell) : List FailureDetail :=
  match c.outputs with
  | none => []
  | some outs => (outs.filter (fun o => o.output_type == errTag)).map (cellDetail c)

/-- All error-output details of an executed notebook, in document order. -/
def errorDetails (cells : List Cell) : List FailureDetail :=
  cells.flatMap cellErrors

/-- The result interpreter as §4.4 of the specification words it: the scan
runs to the end of the document and "the last error seen determines the
reported message content". Stated from the spec, for comparison with
`firstError`, which embeds the code. -/
def lastErrorSpec (cells : List Cell) : Option FailureDetail :=
  (errorDetails cells).getLast?

/-! ## The generated test function (lines 32-98) -/

/-- The attributes the generated test reads from its test-case object,
plus `sys.version_info[0]`. -/
structure TestCtx where
  ignore : List Str
  py2_ignore : List Str
  versionMajor : Nat
deriving DecidableEq

/-- The skip condition at lines 41-43:
`(nbname in self.ignore) or (nbname in self.py2_ignore and sys.version_info[0] == 2)`. -/
def shouldSkip (nbname : Str) (ctx : TestCtx) : Bool :=
  ctx.ignore.contains nbname || (ctx.py2_ignore.contains nbname && ctx.versionMajor == 2)

/-- Line 47: `os.path.sep.join(nbpath.split(os.path.sep)[:-1])` — the
directory containing the notebook. -/
def runPath (nbpath : Str) : Str :=
  List.intercalate [pathSep] ((nbpath.splitOn pathSep).dropLast)

/-- How one run of a generated test ends, as `unittest` classifies it:
an early skip return, a normal pass return, a raised `AssertionError`
(recorded as a failure), or any other raised exception (recorded as an
error). -/
inductive TestResult where
  | skipped
  | passed
  | failed (detail : FailureDetail)
  | errored
deriving DecidableEq

/-- A finished run of `test_func`: how it ended, and the process working
directory it leaves behind. -/
structure FuncResult where
  result : TestResult
  finalCwd : Str
deriving DecidableEq

/-- Shallow embedding of `get_test(nbname, nbpath, timeout).test_func`:

* `cwd = os.getcwd()` (line 33) is the `cwd` argument;
* if the skip condition holds, the function returns before any `chdir`;
* otherwise `os.chdir(run_path)` (line 48) switches to the notebook's
  directory, and the external load/clear/execute sequence runs (`world`):
  if it raises, the exception propagates with the working directory still
  `run_path` — the `os.chdir(cwd)` at line 63 is never reached;
* if it returns, `os.chdir(cwd)` restores the directory, and the output
  scan either raises `AssertionError` at the first error output or falls
  through to the pass branch. -/
def test_func (nbname nbpath : Str) (ctx : TestCtx) (world : ExecResult)
    (cwd : Str) : FuncResult :=
  if shouldSkip nbname ctx then
    ⟨.skipped, cwd⟩
  else
    match world with
    | .raised => ⟨.errored, runPath nbpath⟩
    | .ok nb =>
      match firstError nb.cells with
      | some d => ⟨.failed d, cwd⟩
      | none => ⟨.passed, cwd⟩

/-! ## Discovery (`TestNotebooks.__init__`, lines 161-177) -/

/-- The notebook filename extension. -/
def ipynbExt : Str := ".ipynb".data

/-- The checkpoint-artifact suffix. -/
def checkpointSuffix : Str := "-checkpoint.ipynb".data

/-- The filename filter at lines 169-171:
`filename.endswith(".ipynb") and not filename.endswith("-checkpoint.ipynb")`. -/
def isNbFile (filename : Str) : Bool :=
  ipynbExt.isSuffixOf filename && !(checkpointSuffix.isSuffixOf filename)

/-- Line 175, `"".join(filename[:-6])`: the filename with its last six
characters removed. -/
def nbName (filename : Str) : Str :=
  filename.take (filename.length - 6)

/-- The filesystem under the configured directory, as `os.walk` sees it:
each node carries its own path component, its plain files, and its
subdirectories. -/
inductive DirTree where
  | node (name : Str) (filenames : List Str) (subdirs : List DirTree)

mutual
/-- `os.walk`: yields `(dirpath, filenames)` for this directory and then,
recursively, for every subdirectory. `pfx` is the accumulated path prefix:
`[]` at the root (whose `name` is the configured directory itself),
`parentpath ++ [pathSep]` below it. -/
def DirTree.walk : DirTree → Str → List (Str × List Str)
  | .node name files subdirs, pfx =>
    (pfx ++ name, files) :: walkList subdirs (pfx ++ name ++ [pathSep])

/-- `os.walk` over a list of sibling subdirectories. -/
def walkList : List DirTree → Str → List (Str × List Str)
  | [], _ => []
  | d :: ds, pfx => d.walk pfx ++ walkList ds pfx
end

/-- The discovery loop (lines 167-175), keeping the `(dirname, filename)`
pair of every selected notebook in traversal order. -/
def discovered (t : DirTree) : List (Str × Str) :=
  (t.walk []).flatMap (fun pr => (pr.2.filter isNbFile).map (fun f => (pr.1, f)))

/-- `self._nbpaths`: `dirname + os.path.sep + filename` per selected file. -/
def nbpaths (t : DirTree) : List Str :=
  (discovered t).map (fun pr => pr.1 ++ [pathSep] ++ pr.2)

/-- `self._nbnames`: `"".join(filename[:-6])` per selected file. -/
def nbnames (t : DirTree) : List Str :=
  (discovered t).map (fun pr => nbName pr.2)

/-! ## The test dictionary (`TestNotebooks.test_dict`, lines 179-194) -/

/-- Python dict assignment `d[k] = v` on a dict kept in insertion order:
if the key is present its value is replaced in place, otherwise the pair
is appended. -/
def dictInsert (d : List (Str × α)) (k : Str) (v : α) : List (Str × α) :=
  if d.any (fun pr => pr.1 == k) then
    d.map (fun pr => if pr.1 == k then (k, v) else pr)
  else
    d ++ [(k, v)]

/-- The keys of a dict, in order. -/
def dictKeys (d : List (Str × α)) : List Str :=
  d.map (fun pr => pr.1)

/-- The test name: `"test_" + notebook`. -/
def testKey (nbname : Str) : Str :=
  "test_".data ++ nbname

/-- The loop `for notebook, nbpath in zip(self._nbnames, self._nbpaths):
tests["test_" + notebook] = get_test(notebook, nbpath, ...)`. Each value
records the `(nbname, nbpath)` pair the generated test closes over. -/
def buildTestDict (pairs : List (Str × Str)) : List (Str × (Str × Str)) :=
  pairs.foldl (fun d pr => dictInsert d (testKey pr.1) pr) []

/-- `TestNotebooks.test_dict` for the notebooks discovered under `t`. -/
def test_dict (t : DirTree) : List (Str × (Str × Str)) :=
  buildTestDict ((nbnames t).zip (nbpaths t))

/-! ## Attaching tests to an existing object (`get_tests`, lines 204-206) -/

/-- The loop `for key, val in self.test_dict: setattr(obj, key, val)` when
`obj` is not `None`. Iterating a python dict yields its keys; each key, a
string, is then unpacked into the pair `key, val`, which succeeds exactly
when the string has two characters and raises `ValueError` otherwise. -/
def attachLoop : List Str → Except Unit Unit
  | [] => .ok ()
  | k :: ks => if k.length = 2 then attachLoop ks else .error ()

/-- `TestNotebooks.get_tests(obj)` with `obj` not `None`, reduced to
whether the attachment loop completes or raises. -/
def get_tests_attach (d : List (Str × (Str × Str))) : Except Unit Unit :=
  attachLoop (dictKeys d)

/-! ## Running the suite (`run_tests`, lines 211-229) -/

/-- Whether `unittest` records this run as a failure or an error. -/
def TestResult.isFailure : TestResult → Bool
  | .failed _ => true
  | .errored => true
  | _ => false

/-- `unittest.TestResult.wasSuccessful()`: true when no test failed or
errored; normal returns — passes and early skip returns — all count as
success. -/
def wasSuccessful (rs : List TestResult) : Bool :=
  rs.all (fun r => ! r.isFailure)

/-- Running every test of the dictionary in order, threading the
process-wide working directory from each test into the next. `world` maps
a notebook path to the outcome of the external execution sequence on it. -/
def runSuite : List (Str × (Str × Str)) → TestCtx → (Str → ExecResult) → Str →
    List TestResult × Str
  | [], _, _, cwd => ([], cwd)
  | e :: es, ctx, world, cwd =>
    let r := test_func e.2.1 e.2.2 ctx (world e.2.2) cwd
    let rest := runSuite es ctx world r.finalCwd
    (r.result :: rest.1, rest.2)

/-- `TestNotebooks.run_tests`: build the suite from the test dictionary,
run it, and return `result.wasSuccessful()`. -/
def run_tests (t : DirTree) (ctx : TestCtx) (world : Str → ExecResult)
    (cwd : Str) : Bool :=
  wasSuccessful (runSuite (test_dict t) ctx world cwd).1

/-! ## Helper lemmas -/

theorem find?_map_eq_head (l : List Output) (p : Output → Bool)
    (g : Output → FailureDetail) :
    (l.find? p).map g = ((l.filter p).map g).head? := by
  induction l with
  | nil => rfl
  | cons o os ih =>
    rw [List.find?_cons, List.filter_cons]
    cases h : p o with
    | true => simp
    | false =>
      simp only [Bool.false_eq_true, if_false]
      exact ih

theorem cellFirstError_eq_head (c : Cell) :
    cellFirstError c = (cellErrors c).head? := by
  unfold cellFirstError cellErrors
  cases c.outputs with
  | none => rfl
  | some outs => exact find?_map_eq_head outs _ _

theorem firstError_eq_head (cells : List Cell) :
    firstError cells = (errorDetails cells).head? := by
  induction cells with
  | nil => rfl
  | cons c cs ih =>
    cases hce : cellErrors c with
    | nil =>
      have h1 : cellFirstError c = none := by rw [cellFirstError_eq_head, hce]; rfl
      simp only [firstError, h1, errorDetails, List.flatMap_cons, hce,
        List.nil_append]
      exact ih
    | cons x xs =>
      have h1 : cellFirstError c = some x := by rw [cellFirstError_eq_head, hce]; rfl
      simp [firstError, h1, errorDetails, List.flatMap_cons, hce]

theorem ipynbExt_length : ipynbExt.length = 6 := rfl

theorem nbName_append_ext (f : Str) (h : ipynbExt.isSuffixOf f = true) :
    nbName f ++ ipynbExt = f := by
  have hs : ipynbExt <:+ f := by simpa using h
  have := List.suffix_iff_eq_append.mp hs
  rw [ipynbExt_length] at this
  simpa [nbName] using this

theorem isNbFile_iff (f : Str) :
    isNbFile f = true ↔
      ipynbExt.isSuffixOf f = true ∧ checkpointSuffix.isSuffixOf f = false := by
  simp [isNbFile, Bool.and_eq_true, Bool.not_eq_true']

theorem mem_discovered (t : DirTree) (d f : Str) :
    (d, f) ∈ discovered t ↔
      ∃ files, (d, files) ∈ t.walk [] ∧ f ∈ files ∧ isNbFile f = true := by
  simp only [discovered, List.mem_flatMap, List.mem_map, List.mem_filter]
  constructor
  · rintro ⟨⟨d', files⟩, hw, f', ⟨hf', hnb⟩, heq⟩
    obtain ⟨rfl, rfl⟩ := Prod.mk.injEq .. ▸ heq
    exact ⟨files, hw, hf', hnb⟩
  · rintro ⟨files, hw, hf, hnb⟩
    exact ⟨⟨d, files⟩, hw, f, ⟨hf, hnb⟩, rfl⟩

theorem isNbFile_of_mem_discovered (t : DirTree) (pr : Str × Str)
    (h : pr ∈ discovered t) : isNbFile pr.2 = true := by
  obtain ⟨d, f⟩ := pr
  exact ((mem_discovered t d f).mp h).choose_spec.2.2

theorem contains_iff_mem (l : List Str) (a : Str) : l.contains a = true ↔ a ∈ l := by
  rw [List.contains_iff_exists_mem_beq]
  simp

theorem shouldSkip_iff (nbname : Str) (ctx : TestCtx) :
    shouldSkip nbname ctx = true ↔
      nbname ∈ ctx.ignore ∨ (nbname ∈ ctx.py2_ignore ∧ ctx.versionMajor = 2) := by
  unfold shouldSkip
  rw [Bool.or_eq_true, Bool.and_eq_true]
  rw [contains_iff_mem, contains_iff_mem, beq_iff_eq]

theorem any_key_iff_mem (d : List (Str × α)) (k : Str) :
    d.any (fun pr => pr.1 == k) = true ↔ k ∈ dictKeys d := by
  rw [List.any_eq_true]
  unfold dictKeys
  rw [List.mem_map]
  constructor
  · rintro ⟨pr, hpr, hbeq⟩
    exact ⟨pr, hpr, eq_of_beq hbeq⟩
  · rintro ⟨pr, hpr, heq⟩
    exact ⟨pr, hpr, beq_iff_eq.mpr heq⟩

theorem dictKeys_dictInsert (d : List (Str × α)) (k : Str) (v : α) :
    dictKeys (dictInsert d k v) =
      if d.any (fun pr => pr.1 == k) then dictKeys d else dictKeys d ++ [k] := by
  unfold dictInsert dictKeys
  split
  · rw [List.map_map]
    refine List.map_congr_left (fun pr _ => ?_)
    by_cases h : pr.1 == k
    · simp only [Function.comp, h, if_pos]
      exact (eq_of_beq h).symm
    · simp only [Function.comp, h]
      rfl
  · simp

theorem mem_dictKeys_dictInsert (d : List (Str × α)) (k k' : Str) (v : α) :
    k' ∈ dictKeys (dictInsert d k v) ↔ k' ∈ dictKeys d ∨ k' = k := by
  rw [dictKeys_dictInsert]
  split
  · case isTrue h =>
    constructor
    · exact Or.inl
    · rintro (h' | rfl)
      · exact h'
      · exact (any_key_iff_mem d k').mp h
  · simp

theorem dictKeys_nodup_dictInsert (d : List (Str × α)) (k : Str) (v : α)
    (h : (dictKeys d).Nodup) : (dictKeys (dictInsert d k v)).Nodup := by
  rw [dictKeys_dictInsert]
  split
  · exact h
  · case isFalse hf =>
    have hk : k ∉ dictKeys d := fun hm => hf ((any_key_iff_mem d k).mpr hm)
    simp [List.nodup_append, h, hk]

theorem length_dictInsert (d : List (Str × α)) (k : Str) (v : α) :
    (dictInsert d k v).length ≤ d.length + 1 := by
  unfold dictInsert
  split
  · simp only [List.length_map]
    exact Nat.le_succ _
  · simp

theorem buildTestDict_go_mem (pairs : List (Str × Str))
    (d : List (Str × (Str × Str))) (k : Str) :
    k ∈ dictKeys (pairs.foldl (fun d pr => dictInsert d (testKey pr.1) pr) d) ↔
      k ∈ dictKeys d ∨ ∃ pr ∈ pairs, testKey pr.1 = k := by
  induction pairs generalizing d with
  | nil => simp
  | cons p ps ih =>
    rw [List.foldl_cons, ih, mem_dictKeys_dictInsert]
    simp only [List.mem_cons]
    constructor
    · rintro ((h | rfl) | ⟨pr, hpr, hk⟩)
      · exact Or.inl h
      · exact Or.inr ⟨p, Or.inl rfl, rfl⟩
      · exact Or.inr ⟨pr, Or.inr hpr, hk⟩
    · rintro (h | ⟨pr, (rfl | hpr), hk⟩)
      · exact Or.inl (Or.inl h)
      · exact Or.inl (Or.inr hk.symm)
      · exact Or.inr ⟨pr, hpr, hk⟩

theorem buildTestDict_go_nodup (pairs : List (Str × Str))
    (d : List (Str × (Str × Str))) (h : (dictKeys d).Nodup) :
    (dictKeys (pairs.foldl (fun d pr => dictInsert d (testKey pr.1) pr) d)).Nodup := by
  induction pairs generalizing d with
  | nil => exact h
  | cons p ps ih => exact ih _ (dictKeys_nodup_dictInsert _ _ _ h)

theorem buildTestDict_go_length (pairs : List (Str × Str))
    (d : List (Str × (Str × Str))) :
    (pairs.foldl (fun d pr => dictInsert d (testKey pr.1) pr) d).length ≤
      d.length + pairs.length := by
  induction pairs generalizing d with
  | nil => simp
  | cons p ps ih =>
    rw [List.foldl_cons]
    calc (ps.foldl (fun d pr => dictInsert d (testKey pr.1) pr)
            (dictInsert d (testKey p.1) p)).length
        ≤ (dictInsert d (testKey p.1) p).length + ps.length := ih _
      _ ≤ (d.length + 1) + ps.length :=
          Nat.add_le_add_right (length_dictInsert d _ p) _
      _ = d.length + (p :: ps).length := by simp only [List.length_cons]; omega

theorem mem_dictKeys_buildTestDict (pairs : List (Str × Str)) (k : Str) :
    k ∈ dictKeys (buildTestDict pairs) ↔ ∃ pr ∈ pairs, testKey pr.1 = k := by
  unfold buildTestDict
  rw [buildTestDict_go_mem]
  simp [dictKeys]

theorem testKey_length (nbname : Str) :
    (testKey nbname).length = 5 + nbname.length := by
  simp [testKey]
  omega

theorem attachLoop_error (ks : List Str) (hne : ks ≠ [])
    (h : ∀ k ∈ ks, k.length ≠ 2) : attachLoop ks = .error () := by
  cases ks with
  | nil => exact absurd rfl hne
  | cons k ks =>
    have hk := h k (List.mem_cons_self k ks)
    simp [attachLoop, hk]

theorem test_func_result_cwd (nbname nbpath : Str) (ctx : TestCtx)
    (world : ExecResult) (cwd cwd' : Str) :
    (test_func nbname nbpath ctx world cwd).result =
      (test_func nbname nbpath ctx world cwd').result := by
  unfold test_func
  split
  · rfl
  · cases world with
    | raised => rfl
    | ok nb => cases hfe : firstError nb.cells <;> simp only [hfe]

theorem runSuite_results (es : List (Str × (Str × Str))) (ctx : TestCtx)
    (world : Str → ExecResult) (cwd : Str) :
    (runSuite es ctx world cwd).1 =
      es.map (fun e => (test_func e.2.1 e.2.2 ctx (world e.2.2) []).result) := by
  induction es generalizing cwd with
  | nil => rfl
  | cons e es ih =>
    simp only [runSuite, List.map_cons]
    rw [ih]
    exact congrArg (fun r => r :: _) (test_func_result_cwd _ _ _ _ _ _)

theorem test_func_not_failure (nbname nbpath : Str) (ctx : TestCtx)
    (world : ExecResult) (cwd : Str) :
    (test_func nbname nbpath ctx world cwd).result.isFailure = false ↔
      shouldSkip nbname ctx = true ∨
        ∃ nb, world = .ok nb ∧ firstError nb.cells = none := by
  unfold test_func
  by_cases hs : shouldSkip nbname ctx
  · simp [hs, TestResult.isFailure]
  · cases world with
    | raised => simp [hs, TestResult.isFailure]
    | ok nb =>
      cases hfe : firstError nb.cells with
      | none => simp [hs, hfe, TestResult.isFailure]
      | some d => simp [hs, hfe, TestResult.isFailure]

/-! ## Concrete fixtures -/

/-- A directory holding `a.ipynb`, `a-checkpoint.ipynb`, `b.ipynb`. -/
def demoTree : DirTree :=
  .node "/r".data ["a.ipynb".data, "a-checkpoint.ipynb".data, "b.ipynb".data] []

/-- Two subdirectories each holding a notebook named `a.ipynb`: the two
discovered notebooks derive the same name. -/
def dupTree : DirTree :=
  .node "/r".data []
    [.node "d1".data ["a.ipynb".data] [],
     .node "d2".data ["a.ipynb".data] []]

/-- An error output named `E1`. -/
def outE1 : Output := ⟨"error".data, "E1".data, ["tb1".data]⟩

/-- An error output named `E2`. -/
def outE2 : Output := ⟨"error".data, "E2".data, ["tb2".data]⟩

/-- A cell whose only output is the error `E1`. -/
def cellE1 : Cell := ⟨some [outE1], some 1, "x1".data⟩

/-- A cell whose only output is the error `E2`. -/
def cellE2 : Cell := ⟨some [outE2], some 2, "x2".data⟩

/-- An executed notebook in which two distinct cells errored. -/
def nbTwoErrors : Notebook := ⟨[cellE1, cellE2]⟩

/-- A run configuration that ignores the notebook named `a`. -/
def ctxA : TestCtx := ⟨["a".data], [], 3⟩

/-! ## Claims -/

/-- C1, counterexample: the claim says the working directory is restored
even when loading or executing raises. In the code `os.chdir(cwd)` sits
after `execute.preprocess` with no try/finally, so when the execution
sequence raises, the process is left in the notebook's directory: here the
test on `/d/a.ipynb` started from `/w` ends in `/d`. -/
theorem c1_counterexample :
    (test_func "a".data "/d/a.ipynb".data ⟨[], [], 3⟩ .raised "/w".data).finalCwd
        = "/d".data ∧
    "/d".data ≠ "/w".data := by decide

/-- C1, amended: when the load/clear/execute sequence completes without
raising, the working directory is restored to its original value after the
test — including when the notebook's cells contain errors (the restoring
`chdir` precedes the output scan and its raising `assert`). -/
theorem c1_cwd_restored_when_exec_returns (nbname nbpath : Str) (ctx : TestCtx)
    (nb : Notebook) (cwd : Str) :
    (test_func nbname nbpath ctx (.ok nb) cwd).finalCwd = cwd := by
  unfold test_func
  split
  · rfl
  · cases hfe : firstError nb.cells <;> simp only [hfe]

/-- C2, counterexample: the claim says the reported failure carries the
detail of the LAST error output in document order. On a notebook whose
first and second cells both errored, the code reports the first cell's
error `E1`, while the last error in document order is `E2`. -/
theorem c2_counterexample :
    (test_func "n".data "/d/n.ipynb".data ⟨[], [], 3⟩ (.ok nbTwoErrors)
        "/w".data).result = .failed (cellDetail cellE1 outE1) ∧
    lastErrorSpec nbTwoErrors.cells = some (cellDetail cellE2 outE2) ∧
    cellDetail cellE1 outE1 ≠ cellDetail cellE2 outE2 := by decide

/-- C2, amended: for a non-skipped notebook whose execution returns, the
test fails with detail `d` exactly when `d` is the FIRST error output in
document order — the nested scan raises at the first error and never
reaches later ones. -/
theorem c2_first_error_reported (nbname nbpath : Str) (ctx : TestCtx)
    (nb : Notebook) (cwd : Str) (d : FailureDetail)
    (h : shouldSkip nbname ctx = false) :
    (test_func nbname nbpath ctx (.ok nb) cwd).result = .failed d ↔
      (errorDetails nb.cells).head? = some d := by
  unfold test_func
  rw [h]
  simp only [Bool.false_eq_true, if_false]
  rw [← firstError_eq_head]
  cases hfe : firstError nb.cells <;> simp [hfe]

/-- C2, witness for the amended theorem: on the two-error notebook the
reported detail is the head of the document-order error list, `E1`. -/
theorem c2_first_error_reported_witness :
    (test_func "n".data "/d/n.ipynb".data ⟨[], [], 3⟩ (.ok nbTwoErrors)
        "/w".data).result = .failed (cellDetail cellE1 outE1) :=
  (c2_first_error_reported "n".data "/d/n.ipynb".data ⟨[], [], 3⟩ nbTwoErrors
    "/w".data (cellDetail cellE1 outE1) (by decide)).mpr (by decide)

/-- C3, counterexample: the claim says building the suite fails with a
DuplicateNameError when two discovered notebooks share a derived name. In
the code the dict assignment silently overwrites: with two notebooks both
named `a`, two names are discovered but the dictionary holds a single
entry — the later notebook's path — and no error is raised. -/
theorem c3_counterexample :
    (nbnames dupTree).length = 2 ∧
    (test_dict dupTree).length = 1 ∧
    test_dict dupTree = [(testKey "a".data, ("a".data, "/r/d2/a.ipynb".data))] := by
  decide

/-- C3, amended: when two discovered notebooks derive the same name no
error is raised; the dict assignment collapses them onto one key, so the
dictionary's keys are exactly the derived test names without duplicates
and the suite may hold fewer tests than discovered notebooks. -/
theorem c3_duplicate_names_collapse (pairs : List (Str × Str)) :
    (dictKeys (buildTestDict pairs)).Nodup ∧
    (∀ k, k ∈ dictKeys (buildTestDict pairs) ↔ ∃ pr ∈ pairs, testKey pr.1 = k) ∧
    (buildTestDict pairs).length ≤ pairs.length := by
  refine ⟨buildTestDict_go_nodup pairs [] (by simp [dictKeys]),
    fun k => mem_dictKeys_buildTestDict pairs k, ?_⟩
  have h := buildTestDict_go_length pairs []
  simpa [buildTestDict] using h

/-- C4: a notebook whose name is in `ignore` — or in `py2_ignore` while the
runtime major version is the legacy value 2 — yields the `skipped` result,
which is neither `passed` nor `failed`, and prepending a skipped result to
any run leaves the aggregate success value unchanged. -/
theorem c4_ignored_is_skipped (nbname nbpath : Str) (ctx : TestCtx)
    (world : ExecResult) (cwd : Str) (rs : List TestResult)
    (h : nbname ∈ ctx.ignore ∨ (nbname ∈ ctx.py2_ignore ∧ ctx.versionMajor = 2)) :
    (test_func nbname nbpath ctx world cwd).result = .skipped ∧
    wasSuccessful (.skipped :: rs) = wasSuccessful rs := by
  constructor
  · unfold test_func
    rw [if_pos ((shouldSkip_iff nbname ctx).mpr h)]
  · simp [wasSuccessful, TestResult.isFailure]

/-- C4, witness: notebook `a` is in the ignore list; its test is skipped
even though execution would raise, and a skip changes no aggregate. -/
theorem c4_ignored_is_skipped_witness :
    (test_func "a".data "/r/a.ipynb".data ctxA .raised "/w".data).result
        = .skipped ∧
    wasSuccessful [.skipped, .passed] = wasSuccessful [.passed] :=
  c4_ignored_is_skipped "a".data "/r/a.ipynb".data ctxA .raised "/w".data
    [.passed] (Or.inl (by decide))

theorem test_func_skipped_iff (nbname nbpath : Str) (ctx : TestCtx)
    (world : ExecResult) (cwd : Str) :
    (test_func nbname nbpath ctx world cwd).result = .skipped ↔
      shouldSkip nbname ctx = true := by
  unfold test_func
  by_cases hs : shouldSkip nbname ctx
  · simp [hs]
  · cases world with
    | raised => simp [hs]
    | ok nb => cases hfe : firstError nb.cells <;> simp [hfe, hs]

/-- C5: the skip decision of the generated test is exactly: skip when the
name is in `ignore` (any runtime version), or when the name is in
`py2_ignore` and the runtime major version is 2; otherwise no skip. The
decision itself has no side effect: a skipped test returns with the
working directory exactly as it found it. -/
theorem c5_skip_decision (nbname nbpath : Str) (ctx : TestCtx)
    (world : ExecResult) (cwd : Str) :
    ((test_func nbname nbpath ctx world cwd).result = .skipped ↔
      nbname ∈ ctx.ignore ∨ (nbname ∈ ctx.py2_ignore ∧ ctx.versionMajor = 2)) ∧
    (shouldSkip nbname ctx = true →
      test_func nbname nbpath ctx world cwd = ⟨.skipped, cwd⟩) := by
  constructor
  · rw [test_func_skipped_iff, shouldSkip_iff]
  · intro hs
    unfold test_func
    rw [if_pos hs]

/-- C6: discovery selects, in every directory the walk visits, exactly the
files whose name ends with `.ipynb` and does not end with
`-checkpoint.ipynb`; on the directory holding `a.ipynb`,
`a-checkpoint.ipynb`, `b.ipynb` the discovery set is `{a, b}`. -/
theorem c6_discovery_filter (t : DirTree) (d f : Str) :
    ((d, f) ∈ discovered t ↔
      ∃ files, (d, files) ∈ t.walk [] ∧ f ∈ files ∧
        ipynbExt.isSuffixOf f = true ∧ checkpointSuffix.isSuffixOf f = false) ∧
    nbnames demoTree = ["a".data, "b".data] := by
  constructor
  · rw [mem_discovered]
    constructor
    · rintro ⟨files, hw, hf, hnb⟩
      exact ⟨files, hw, hf, (isNbFile_iff f).mp hnb⟩
    · rintro ⟨files, hw, hf, h1, h2⟩
      exact ⟨files, hw, hf, (isNbFile_iff f).mpr ⟨h1, h2⟩⟩
  · decide

/-- C7: every discovered notebook's derived name is the filename with the
`.ipynb` suffix removed and nothing else changed (appending the extension
back gives the filename), and the test dictionary holds the key
`"test_"` + name for it. -/
theorem c7_name_and_key (t : DirTree) (d f : Str)
    (h : (d, f) ∈ discovered t) :
    nbName f ++ ipynbExt = f ∧
    testKey (nbName f) ∈ dictKeys (test_dict t) := by
  have hnb : isNbFile f = true := isNbFile_of_mem_discovered t (d, f) h
  have hsuf : ipynbExt.isSuffixOf f = true := ((isNbFile_iff f).mp hnb).1
  refine ⟨nbName_append_ext f hsuf, ?_⟩
  unfold test_dict
  rw [mem_dictKeys_buildTestDict]
  refine ⟨(nbName f, d ++ [pathSep] ++ f), ?_, rfl⟩
  have hzip : (nbnames t).zip (nbpaths t) =
      (discovered t).map (fun pr => (nbName pr.2, pr.1 ++ [pathSep] ++ pr.2)) := by
    unfold nbnames nbpaths
    rw [List.zip_map']
  rw [hzip, List.mem_map]
  exact ⟨(d, f), h, rfl⟩

/-- C7, witness: the discovered notebook `a.ipynb` under `/r` derives the
name `a` and is registered under the key `test_a`. -/
theorem c7_name_and_key_witness :
    nbName "a.ipynb".data ++ ipynbExt = "a.ipynb".data ∧
    testKey (nbName "a.ipynb".data) ∈ dictKeys (test_dict demoTree) :=
  c7_name_and_key demoTree "/r".data "a.ipynb".data (by decide)

/-- C8: `run_tests` returns true exactly when no test fails: every entry of
the suite either skips, or its execution returns a notebook with no
error-typed output anywhere. A notebook with an error output (assertion
failure) or an execution that raises (infrastructure failure) makes the
aggregate false, while skips and passes both count toward success. -/
theorem c8_aggregate (t : DirTree) (ctx : TestCtx) (world : Str → ExecResult)
    (cwd : Str) :
    run_tests t ctx world cwd = true ↔
      ∀ e ∈ test_dict t, shouldSkip e.2.1 ctx = true ∨
        ∃ nb, world e.2.2 = .ok nb ∧ firstError nb.cells = none := by
  unfold run_tests wasSuccessful
  rw [runSuite_results]
  simp only [List.all_eq_true, List.forall_mem_map, Bool.not_eq_true']
  exact forall_congr' fun e => forall_congr' fun he =>
    test_func_not_failure e.2.1 e.2.2 ctx (world e.2.2) []

/-- C9: with a non-`None` target object, `get_tests` iterates the test
dictionary itself — which yields its string keys — and unpacks each key
into a pair, raising unless the key has exactly two characters. Every key
has the form `"test_"` + name (length at least 5), so the attachment
raises on any non-empty test dictionary and never succeeds. -/
theorem c9_attach_raises (t : DirTree) (h : test_dict t ≠ []) :
    get_tests_attach (test_dict t) = .error () := by
  unfold get_tests_attach
  apply attachLoop_error
  · intro hk
    apply h
    unfold dictKeys at hk
    exact List.map_eq_nil_iff.mp hk
  · intro k hk
    unfold test_dict at hk
    obtain ⟨pr, _, rfl⟩ := (mem_dictKeys_buildTestDict _ k).mp hk
    rw [testKey_length]
    omega

/-- C9, witness: on the demo directory's (non-empty) test dictionary the
attachment loop raises. -/
theorem c9_attach_raises_witness :
    get_tests_attach (test_dict demoTree) = .error () :=
  c9_attach_raises demoTree (by decide)

/-- C10: after construction the name list and the path list have equal
length and correspond position-wise — each path ends with the separator,
the name at the same index, and `.ipynb` — and the test dictionary's input
pairs the name and path of the same index. -/
theorem c10_lockstep (t : DirTree) :
    (nbnames t).length = (nbpaths t).length ∧
    (∀ i (h1 : i < (nbnames t).length) (h2 : i < (nbpaths t).length),
      ([pathSep] ++ (nbnames t)[i] ++ ipynbExt) <:+ (nbpaths t)[i]) ∧
    (∀ i (h : i < ((nbnames t).zip (nbpaths t)).length)
        (h1 : i < (nbnames t).length) (h2 : i < (nbpaths t).length),
      ((nbnames t).zip (nbpaths t))[i] = ((nbnames t)[i], (nbpaths t)[i])) := by
  refine ⟨by simp [nbnames, nbpaths], fun i h1 h2 => ?_, fun i h h1 h2 => ?_⟩
  · have hd : i < (discovered t).length := by simpa [nbnames] using h1
    have hpr : (discovered t)[i] ∈ discovered t := List.getElem_mem hd
    have hnb : isNbFile ((discovered t)[i]).2 = true :=
      isNbFile_of_mem_discovered t _ hpr
    have hsuf : ipynbExt.isSuffixOf ((discovered t)[i]).2 = true :=
      ((isNbFile_iff _).mp hnb).1
    have hext := nbName_append_ext _ hsuf
    have hn : (nbnames t)[i] = nbName ((discovered t)[i]).2 := by
      simp [nbnames]
    have hp : (nbpaths t)[i] =
        ((discovered t)[i]).1 ++ [pathSep] ++ ((discovered t)[i]).2 := by
      simp [nbpaths]
    rw [hn, hp, List.append_assoc, hext, List.append_assoc]
    exact List.suffix_append _ _
  · exact List.getElem_zip
